import Mathlib

/-!
Shallow embedding of src/cal_dav_interface.py, the single source file of the
nextcloud-calendar-skill repository.

Modelling conventions:

* A Python datetime is a wall-clock reading (microseconds) together with an
  optional timezone, itself modelled as a fixed UTC offset in microseconds.
  A missing timezone models a naive datetime.  Comparison of two aware
  datetimes in Python compares absolute instants (reading minus offset);
  comparison of two naive datetimes compares readings.
* Python dates are day numbers (days since the epoch day); the time of day
  datetime.min.time() is 0 microseconds and datetime.max.time() is
  usPerDay - 1 microseconds, matching microsecond resolution.
* The caldav transport and the icalendar codec are external collaborators:
  a calendar is modelled by the data its transport methods return, and a raw
  transport result carries the list of calendar components that
  icalendar.Calendar.from_ical(data, True) yields, each exposing the list of
  VEVENT subcomponents that walk("vevent") yields.
* Exceptions are modelled with Except; PyErr names the Python exception class.
* datetime.astimezone on a naive datetime interprets it in the ambient system
  timezone, passed around explicitly as sysTz.
-/

namespace CalDavSkill

/-- A Python tzinfo object, modelled as a fixed UTC offset in microseconds. -/
abbrev Tz := Int

/-- pytz.UTC, offset zero. -/
def Utc : Tz := 0

/-- Microseconds per calendar day. -/
def usPerDay : Int := 86400000000

/-- Python exception classes raised by the code paths modelled here. -/
inductive PyErr where
  | typeError
  | attributeError
  | indexError
  | notFound
deriving Repr, DecidableEq

/-- A Python datetime: wall-clock reading in microseconds plus optional tzinfo. -/
structure PyDateTime where
  naive : Int
  tzinfo : Option Tz
deriving Repr, DecidableEq

/-- Absolute instant of an aware datetime: reading minus offset.  Only used on
aware datetimes, where it is the value Python order comparison compares. -/
def PyDateTime.utcInstant (d : PyDateTime) : Int :=
  d.naive - d.tzinfo.getD 0

/-- datetime.replace with a tzinfo argument: keep the reading, set the zone. -/
def PyDateTime.replace_tzinfo (d : PyDateTime) (tz : Tz) : PyDateTime :=
  ⟨d.naive, some tz⟩

/-- datetime.astimezone(target): keep the absolute instant, move the reading to
the target zone.  A naive datetime is interpreted in the system zone sysTz. -/
def PyDateTime.astimezone (sysTz : Tz) (d : PyDateTime) (target : Tz) : PyDateTime :=
  ⟨d.naive - d.tzinfo.getD sysTz + target, some target⟩

/-- datetime plus a timedelta of us microseconds: shift the reading, keep tz. -/
def PyDateTime.addDelta (d : PyDateTime) (us : Int) : PyDateTime :=
  ⟨d.naive + us, d.tzinfo⟩

/-- datetime.date(): the calendar day of the reading (floor division). -/
def PyDateTime.date (d : PyDateTime) : Int :=
  d.naive.fdiv usPerDay

/-- datetime.combine(day, datetime.min.time()): naive midnight of the day. -/
def combineMidnight (day : Int) : PyDateTime :=
  ⟨day * usPerDay, none⟩

/-- datetime.combine(day, datetime.max.time()): naive last microsecond of day. -/
def combineEndOfDay (day : Int) : PyDateTime :=
  ⟨day * usPerDay + (usPerDay - 1), none⟩

/-- dt.timedelta(n) with a numeric argument counts n days, in microseconds. -/
def timedeltaOfDays (n : Int) : Int :=
  n * usPerDay

/-- Value of a DTSTART or DTEND property as the icalendar codec delivers it:
either a date-only value or a full timestamp (possibly naive). -/
inductive ICalDT where
  | vdate (day : Int)
  | vdatetime (naive : Int) (tzinfo : Option Tz)
deriving Repr, DecidableEq

/-- A raw VEVENT subcomponent as seen through the codec: the three properties
the code reads, each possibly absent. -/
structure RawVEvent where
  dtstart : Option ICalDT
  dtend : Option ICalDT
  summary : Option String
deriving Repr, DecidableEq

/-- The simplified event mapping the class returns.  get_event_details builds
the dictionary without the event_url key, modelled by the empty string; the
caller parse_ics_events attaches the identifier. -/
structure Event where
  title : String
  starttime : Option PyDateTime
  endtime : Option PyDateTime
  event_url : String
deriving Repr, DecidableEq

/-- One calendar component of a parsed ics payload, exposing the VEVENT
subcomponents that walk("vevent") yields, in order. -/
structure ICal where
  vevents : List RawVEvent
deriving Repr, DecidableEq

/-- A raw transport result: its ics payload as the list of components that
from_ical(data, True) yields, plus its own url identifier. -/
structure RawObject where
  data : List ICal
  url : String
deriving Repr, DecidableEq

/-- A live server-side event object, as resolved by event_by_url; rename
mutates its summary and saves it. -/
structure CalDavEvent where
  summary : String
deriving Repr, DecidableEq

/-- The remote calendar collection, modelled by what its transport methods
return: date_search (with expand=True folded in), full enumeration via
events(), and lookup by url, where resolution failure is modelled as none
(the caldav library raises NotFoundError there). -/
structure Calendar where
  dateSearch : PyDateTime → PyDateTime → List RawObject
  events : List RawObject
  eventByUrl : String → Option CalDavEvent

/-- str.lower(), ASCII case mapping. -/
def pyLower (s : String) : String :=
  ⟨s.data.map Char.toLower⟩

/-- get_event_details: decode one raw VEVENT into the event mapping.
Mirrors the source: a DTSTART or DTEND value that is not a datetime (a
date-only value) is combined with midnight and stamped UTC; a datetime value
is converted to the configured local zone; a missing SUMMARY yields the
default title. -/
def get_event_details (sysTz localTz : Tz) (event : RawVEvent) : Event :=
  let start : Option PyDateTime :=
    match event.dtstart with
    | none => none
    | some (.vdate d) => some ((combineMidnight d).replace_tzinfo Utc)
    | some (.vdatetime n tzo) => some (PyDateTime.astimezone sysTz ⟨n, tzo⟩ localTz)
  let endt : Option PyDateTime :=
    match event.dtend with
    | none => none
    | some (.vdate d) => some ((combineMidnight d).replace_tzinfo Utc)
    | some (.vdatetime n tzo) => some (PyDateTime.astimezone sysTz ⟨n, tzo⟩ localTz)
  let title : String :=
    match event.summary with
    | none => "untitled event"
    | some s => s
  { title := title, starttime := start, endtime := endt, event_url := "" }

/-- parse_ics_events: decode each raw result in order.  Indexing cal[0] into
an empty component list raises IndexError; every decoded event gets the raw
result own url attached. -/
def parse_ics_events (sysTz localTz : Tz) : List RawObject → Except PyErr (List Event)
  | [] => .ok []
  | event :: rest =>
    match event.data with
    | [] => .error .indexError
    | c :: _ =>
      let here := c.vevents.map fun v =>
        { get_event_details sysTz localTz v with event_url := event.url }
      match parse_ics_events sysTz localTz rest with
      | .error err => .error err
      | .ok tail => .ok (here ++ tail)

/-- The events decoded from one raw result: the VEVENTs of its first
component, each with the result url attached; used to state what
parse_ics_events produces. -/
def decodeRaw (sysTz localTz : Tz) (r : RawObject) : List Event :=
  match r.data with
  | [] => []
  | c :: _ => c.vevents.map fun v =>
      { get_event_details sysTz localTz v with event_url := r.url }

/-- get_events_for_timeperiod: range query then batch decode. -/
def get_events_for_timeperiod (sysTz localTz : Tz) (cal : Calendar)
    (startdate enddate : PyDateTime) : Except PyErr (List Event) :=
  parse_ics_events sysTz localTz (cal.dateSearch startdate enddate)

/-- get_events_for_date: range query from midnight to end of day. -/
def get_events_for_date (sysTz localTz : Tz) (cal : Calendar)
    (requested_date : Int) : Except PyErr (List Event) :=
  get_events_for_timeperiod sysTz localTz cal
    (combineMidnight requested_date) (combineEndOfDay requested_date)

/-- Sort key of the next-event scan: sorted(parsed, key = starttime) compares
the aware start datetimes, which Python orders by absolute instant.  The
default value is never reached on the sorted lists the code builds (a missing
start makes the sort or the scan raise first). -/
def startKey (e : Event) : Int :=
  (e.starttime.getD ⟨0, none⟩).utcInstant

/-- Order relation of the next-event sort. -/
def startLe (a b : Event) : Prop :=
  startKey a ≤ startKey b

instance : DecidableRel startLe := fun a b =>
  inferInstanceAs (Decidable (startKey a ≤ startKey b))

instance : IsTotal Event startLe :=
  ⟨fun a b => Int.le_total (startKey a) (startKey b)⟩

instance : IsTrans Event startLe :=
  ⟨fun _ _ _ => Int.le_trans⟩

/-- The loop body comparison of get_next_event: current_time is
datetime.today() with its tzinfo replaced by the candidate tzinfo, so the
comparison starttime > current_time compares readings in every case. -/
def isUpcoming (nowNaive : Int) (e : Event) : Bool :=
  match e.starttime with
  | none => false
  | some st => decide (nowNaive < st.naive)

/-- The linear scan of get_next_event over the sorted list.  On a null start,
accessing starttime.tzinfo for the zone coercion raises AttributeError. -/
def scanNext (nowNaive : Int) : List Event → Except PyErr (Option Event)
  | [] => .ok none
  | e :: rest =>
    match e.starttime with
    | none => .error .attributeError
    | some st => if nowNaive < st.naive then .ok (some e) else scanNext nowNaive rest

/-- get_next_event: enumerate everything, decode, sort by start, scan.
The sorted() call raises TypeError exactly when some comparison involves a
null start: CPython run detection compares every adjacent pair, and both
None versus None and None versus datetime raise, so with at least two decoded
events and at least one null start the sort raises; decoded non-null starts
are always aware, so they never raise among themselves.  Python sorted is a
stable sort, modelled by insertion sort, which is stable. -/
def get_next_event (sysTz localTz : Tz) (cal : Calendar) (nowNaive : Int) :
    Except PyErr (Option Event) :=
  match parse_ics_events sysTz localTz cal.events with
  | .error err => .error err
  | .ok parsed =>
    if 2 ≤ parsed.length ∧ ∃ e ∈ parsed, e.starttime = none then
      .error .typeError
    else
      scanNext nowNaive (List.insertionSort startLe parsed)

/-- The title filter of get_events_with_title: title.lower() in
event.title.lower(), a case-insensitive contiguous substring test. -/
def caseInsensitiveSubstr (needle hay : String) : Prop :=
  (pyLower needle).data <:+: (pyLower hay).data

instance (needle hay : String) : Decidable (caseInsensitiveSubstr needle hay) :=
  inferInstanceAs (Decidable ((pyLower needle).data <:+: (pyLower hay).data))

/-- get_events_with_title: enumerate everything, decode, keep the events whose
lowercased title contains the lowercased query. -/
def get_events_with_title (sysTz localTz : Tz) (cal : Calendar) (title : String) :
    Except PyErr (List Event) :=
  match parse_ics_events sysTz localTz cal.events with
  | .error err => .error err
  | .ok parsed =>
    .ok (parsed.filter fun event => decide (caseInsensitiveSubstr title event.title))

/-- The value handed to event.add for dtstart or dtend: a date or a datetime. -/
inductive DTProp where
  | vdate (day : Int)
  | vdatetime (dt : PyDateTime)
deriving Repr, DecidableEq

/-- One VEVENT of the submitted payload. -/
structure VEventPayload where
  summary : String
  dtstart : DTProp
  dtend : DTProp
deriving Repr, DecidableEq

/-- The icalendar.Calendar payload submitted to calendar.add_event. -/
structure CalPayload where
  components : List VEventPayload
deriving Repr, DecidableEq

/-- The duration argument of create_new_event: a number of days (what
dt.timedelta accepts) or an already built timedelta.  Passing a timedelta to
dt.timedelta, or adding a number to a datetime, raises TypeError. -/
inductive PyDuration where
  | days (n : Int)
  | delta (us : Int)
deriving Repr, DecidableEq

/-- create_new_event: build a calendar payload holding one VEVENT and submit
it.  Full-day: dtstart is the start date and dtend the date of start plus
timedelta(duration).  Otherwise dtstart is the datetime and dtend the
datetime plus the duration.  The function returns the submitted payload. -/
def create_new_event (title : String) (date : PyDateTime) (duration : PyDuration)
    (fullday : Bool) : Except PyErr CalPayload :=
  if fullday then
    match duration with
    | .days n =>
      let start := date.date
      let endd := (date.addDelta (timedeltaOfDays n)).date
      .ok ⟨[⟨title, .vdate start, .vdate endd⟩]⟩
    | .delta _ => .error .typeError
  else
    match duration with
    | .delta us => .ok ⟨[⟨title, .vdatetime date, .vdatetime (date.addDelta us)⟩]⟩
    | .days _ => .error .typeError

/-- delete_event: resolve the stored url and delete; resolution failure
propagates from the transport. -/
def delete_event (cal : Calendar) (event : Event) : Except PyErr Unit :=
  match cal.eventByUrl event.event_url with
  | none => .error .notFound
  | some _ => .ok ()

/-- rename_event: resolve the stored url, set the summary of the live object
and save it; resolution failure propagates from the transport.  The result is
the saved server object. -/
def rename_event (cal : Calendar) (event : Event) (new_title : String) :
    Except PyErr CalDavEvent :=
  match cal.eventByUrl event.event_url with
  | none => .error .notFound
  | some cd => .ok { cd with summary := new_title }

/-- UTC midnight of a calendar day, the shape claimed for date-only decoding. -/
def decodedAsUtcMidnight (day : Int) (st : PyDateTime) : Prop :=
  st.tzinfo = some Utc ∧ st.naive = day * usPerDay

/-- Absolute instant of a datetime when naive readings are interpreted in the
system zone. -/
def instantUnder (sysTz : Tz) (d : PyDateTime) : Int :=
  d.naive - d.tzinfo.getD sysTz

/-- Sample raw VEVENT with a full timestamp start. -/
def sampleVEvent1 : RawVEvent :=
  ⟨some (.vdatetime 1000 (some 0)), none, some "Breakfast"⟩

/-- Sample raw VEVENT with a date-only start. -/
def sampleVEvent2 : RawVEvent :=
  ⟨some (.vdate 2), none, some "Trip"⟩

/-- Sample raw VEVENT with no start and no summary. -/
def sampleNullVEvent : RawVEvent :=
  ⟨none, none, some "Mystery"⟩

/-- Sample collection holding the two well-formed events. -/
def sampleCal : Calendar :=
  { dateSearch := fun _ _ => []
    events := [⟨[⟨[sampleVEvent1]⟩], "u1"⟩, ⟨[⟨[sampleVEvent2]⟩], "u2"⟩]
    eventByUrl := fun _ => none }

/-- What parse_ics_events decodes sampleCal.events to, at sysTz 0, localTz 0. -/
def sampleParsed : List Event :=
  [⟨"Breakfast", some ⟨1000, some 0⟩, none, "u1"⟩,
   ⟨"Trip", some ⟨2 * usPerDay, some 0⟩, none, "u2"⟩]

/-- Sample collection whose single raw result holds a null-start event next to
a well-formed one. -/
def sampleNullCal : Calendar :=
  { dateSearch := fun _ _ => []
    events := [⟨[⟨[sampleNullVEvent, sampleVEvent1]⟩], "u3"⟩]
    eventByUrl := fun _ => none }

/-- Decoded form of the null-start sample event. -/
def sampleNullEvent : Event :=
  ⟨"Mystery", none, none, "u3"⟩

/-- What parse_ics_events decodes sampleNullCal.events to, at sysTz 0,
localTz 0. -/
def sampleNullParsed : List Event :=
  [sampleNullEvent, ⟨"Breakfast", some ⟨1000, some 0⟩, none, "u3"⟩]

/-- Sample event mapping whose identifier resolves to nothing in sampleCal. -/
def sampleEvent : Event :=
  ⟨"Breakfast", some ⟨1000, some 0⟩, none, "u1"⟩

/-! Theorems. -/

/-- Helper: adding a timedelta of n days to a datetime shifts its calendar
date by n days. -/
theorem addDelta_days_date (date : PyDateTime) (n : Int) :
    (date.addDelta (timedeltaOfDays n)).date = date.date + n := by
  unfold PyDateTime.addDelta PyDateTime.date timedeltaOfDays
  rw [Int.fdiv_eq_ediv _ (by norm_num [usPerDay]),
      Int.fdiv_eq_ediv _ (by norm_num [usPerDay]),
      Int.add_mul_ediv_right _ _ (by norm_num [usPerDay])]

/-- C5: get_events_for_date on day D is exactly get_events_for_timeperiod
invoked with start = naive midnight of D and end = the last microsecond of D
(datetime.max.time), the end-of-day instant. -/
theorem get_events_for_date_eq_timeperiod (sysTz localTz : Tz) (cal : Calendar)
    (d : Int) :
    get_events_for_date sysTz localTz cal d =
      get_events_for_timeperiod sysTz localTz cal
        ⟨d * usPerDay, none⟩ ⟨d * usPerDay + (usPerDay - 1), none⟩ := rfl

/-- C9: decoding a raw event with no SUMMARY yields the default title. -/
theorem get_event_details_untitled (sysTz localTz : Tz) (ev : RawVEvent)
    (h : ev.summary = none) :
    (get_event_details sysTz localTz ev).title = "untitled event" := by
  simp [get_event_details, h]

/-- Witness for C9 at a concrete summaryless raw event. -/
theorem get_event_details_untitled_witness :
    (RawVEvent.mk none none none).summary = none ∧
    (get_event_details 0 60 ⟨none, none, none⟩).title = "untitled event" :=
  ⟨rfl, get_event_details_untitled 0 60 ⟨none, none, none⟩ rfl⟩

/-- C3: decoding rules for DTSTART and DTEND: an absent field decodes to none;
a date-only value decodes to the UTC midnight of that day; a full timestamp
decodes to a datetime carrying the configured local zone whose absolute
instant matches the input instant (naive inputs read in the system zone). -/
theorem get_event_details_decodes_times (sysTz localTz : Tz) (ev : RawVEvent) :
    ((ev.dtstart = none → (get_event_details sysTz localTz ev).starttime = none) ∧
     (∀ d, ev.dtstart = some (.vdate d) →
        ∃ st, (get_event_details sysTz localTz ev).starttime = some st ∧
          decodedAsUtcMidnight d st) ∧
     (∀ n tzo, ev.dtstart = some (.vdatetime n tzo) →
        ∃ st, (get_event_details sysTz localTz ev).starttime = some st ∧
          st.tzinfo = some localTz ∧
          instantUnder sysTz st = instantUnder sysTz ⟨n, tzo⟩)) ∧
    ((ev.dtend = none → (get_event_details sysTz localTz ev).endtime = none) ∧
     (∀ d, ev.dtend = some (.vdate d) →
        ∃ st, (get_event_details sysTz localTz ev).endtime = some st ∧
          decodedAsUtcMidnight d st) ∧
     (∀ n tzo, ev.dtend = some (.vdatetime n tzo) →
        ∃ st, (get_event_details sysTz localTz ev).endtime = some st ∧
          st.tzinfo = some localTz ∧
          instantUnder sysTz st = instantUnder sysTz ⟨n, tzo⟩)) := by
  refine ⟨⟨fun h => ?_, fun d h => ?_, fun n tzo h => ?_⟩,
          ⟨fun h => ?_, fun d h => ?_, fun n tzo h => ?_⟩⟩
  · simp [get_event_details, h]
  · refine ⟨(combineMidnight d).replace_tzinfo Utc, by simp [get_event_details, h], ?_⟩
    simp [decodedAsUtcMidnight, combineMidnight, PyDateTime.replace_tzinfo]
  · refine ⟨PyDateTime.astimezone sysTz ⟨n, tzo⟩ localTz,
      by simp [get_event_details, h], rfl, ?_⟩
    simp only [instantUnder, PyDateTime.astimezone, Option.getD_some]
    omega
  · simp [get_event_details, h]
  · refine ⟨(combineMidnight d).replace_tzinfo Utc, by simp [get_event_details, h], ?_⟩
    simp [decodedAsUtcMidnight, combineMidnight, PyDateTime.replace_tzinfo]
  · refine ⟨PyDateTime.astimezone sysTz ⟨n, tzo⟩ localTz,
      by simp [get_event_details, h], rfl, ?_⟩
    simp only [instantUnder, PyDateTime.astimezone, Option.getD_some]
    omega

/-- Witness for C3: the date-only rule at day 2 and the timestamp rule at a
concrete zoned input, on concrete raw events. -/
theorem get_event_details_decodes_times_witness :
    (∃ st, (get_event_details 0 120 sampleVEvent2).starttime = some st ∧
       decodedAsUtcMidnight 2 st) ∧
    (∃ st, (get_event_details 7 120 sampleVEvent1).starttime = some st ∧
       st.tzinfo = some 120 ∧
       instantUnder 7 st = instantUnder 7 ⟨1000, some 0⟩) :=
  ⟨(get_event_details_decodes_times 0 120 sampleVEvent2).1.2.1 2 rfl,
   (get_event_details_decodes_times 7 120 sampleVEvent1).1.2.2 1000 (some 0) rfl⟩

/-- C4: the submitted payload holds one event; for a full-day event dtstart
and dtend are date-only, with dtend the start date shifted by the duration in
days; otherwise both are full timestamps with dtend = dtstart + duration.
The concrete case encodes the Holiday scenario: day 19875 is 2024-06-01 and
day 19878 is 2024-06-04, counting days from 1970-01-01. -/
theorem create_new_event_dtend_rule (title : String) (date : PyDateTime)
    (n us : Int) :
    create_new_event title date (.days n) true =
      .ok ⟨[⟨title, .vdate date.date, .vdate (date.date + n)⟩]⟩ ∧
    create_new_event title date (.delta us) false =
      .ok ⟨[⟨title, .vdatetime date, .vdatetime ⟨date.naive + us, date.tzinfo⟩⟩]⟩ ∧
    create_new_event "Holiday" ⟨19875 * usPerDay, none⟩ (.days 3) true =
      .ok ⟨[⟨"Holiday", .vdate 19875, .vdate 19878⟩]⟩ := by
  refine ⟨?_, rfl, by rfl⟩
  simp [create_new_event, addDelta_days_date]

/-- C7: when the stored identifier no longer resolves, delete_event and
rename_event both propagate the transport lookup failure. -/
theorem delete_rename_propagate_lookup_failure (cal : Calendar) (e : Event)
    (t : String) (h : cal.eventByUrl e.event_url = none) :
    delete_event cal e = .error .notFound ∧
    rename_event cal e t = .error .notFound := by
  constructor <;> simp [delete_event, rename_event, h]

/-- Witness for C7 on the sample collection, whose lookup resolves nothing. -/
theorem delete_rename_propagate_lookup_failure_witness :
    sampleCal.eventByUrl sampleEvent.event_url = none ∧
    delete_event sampleCal sampleEvent = .error .notFound ∧
    rename_event sampleCal sampleEvent "Lunch" = .error .notFound :=
  ⟨rfl, delete_rename_propagate_lookup_failure sampleCal sampleEvent "Lunch" rfl⟩

/-- C8: when every raw result parses to at least one component,
parse_ics_events succeeds with the concatenation, in the order given, of the
decodings of each raw result, and every event decoded from a raw result
carries that result own url as event_url. -/
theorem parse_ics_events_decodes_each (sysTz localTz : Tz) (raws : List RawObject)
    (h : ∀ r ∈ raws, r.data ≠ []) :
    parse_ics_events sysTz localTz raws =
      .ok (raws.flatMap (decodeRaw sysTz localTz)) ∧
    ∀ r e, e ∈ decodeRaw sysTz localTz r → e.event_url = r.url := by
  constructor
  · induction raws with
    | nil => rfl
    | cons r rest ih =>
      obtain ⟨c, cs, hdata⟩ :=
        List.exists_cons_of_ne_nil (h r (List.mem_cons_self r rest))
      have hrest := ih fun x hx => h x (List.mem_cons_of_mem r hx)
      simp [parse_ics_events, hdata, hrest, decodeRaw]
  · intro r e he
    cases hdata : r.data with
    | nil => simp [decodeRaw, hdata] at he
    | cons c cs =>
      simp only [decodeRaw, hdata, List.mem_map] at he
      obtain ⟨v, -, rfl⟩ := he
      rfl

/-- Witness for C8 on the sample collection of two raw results. -/
theorem parse_ics_events_decodes_each_witness :
    (∀ r ∈ sampleCal.events, r.data ≠ []) ∧
    (parse_ics_events 0 0 sampleCal.events =
       .ok (sampleCal.events.flatMap (decodeRaw 0 0)) ∧
     ∀ r e, e ∈ decodeRaw 0 0 r → e.event_url = r.url) :=
  ⟨by decide, parse_ics_events_decodes_each 0 0 sampleCal.events (by decide)⟩

/-- C6: get_events_with_title returns exactly the decoded events whose title
contains the query as a case-insensitive substring. -/
theorem get_events_with_title_filters (sysTz localTz : Tz) (cal : Calendar)
    (t : String) (parsed : List Event)
    (hparse : parse_ics_events sysTz localTz cal.events = .ok parsed) :
    ∃ res, get_events_with_title sysTz localTz cal t = .ok res ∧
      ∀ e, e ∈ res ↔ e ∈ parsed ∧ caseInsensitiveSubstr t e.title := by
  refine ⟨parsed.filter fun event => decide (caseInsensitiveSubstr t event.title),
    ?_, fun e => ?_⟩
  · simp [get_events_with_title, hparse]
  · simp [List.mem_filter]

/-- Witness for C6: the query Break matches only the Breakfast event of the
sample collection. -/
theorem get_events_with_title_filters_witness :
    parse_ics_events 0 0 sampleCal.events = .ok sampleParsed ∧
    ∃ res, get_events_with_title 0 0 sampleCal "Break" = .ok res ∧
      ∀ e, e ∈ res ↔ e ∈ sampleParsed ∧ caseInsensitiveSubstr "Break" e.title :=
  ⟨rfl, get_events_with_title_filters 0 0 sampleCal "Break" sampleParsed rfl⟩

/-- C10: with the empty query every decoded event matches, since the empty
string is a substring of every lowercased title, so the whole decoded
collection is returned. -/
theorem get_events_with_title_empty_returns_all (sysTz localTz : Tz)
    (cal : Calendar) (parsed : List Event)
    (hparse : parse_ics_events sysTz localTz cal.events = .ok parsed) :
    get_events_with_title sysTz localTz cal "" = .ok parsed := by
  simp only [get_events_with_title, hparse]
  congr 1
  rw [List.filter_eq_self]
  intro e _
  simp only [caseInsensitiveSubstr, decide_eq_true_eq]
  exact List.nil_infix

/-- Witness for C10 on the sample collection. -/
theorem get_events_with_title_empty_returns_all_witness :
    parse_ics_events 0 0 sampleCal.events = .ok sampleParsed ∧
    get_events_with_title 0 0 sampleCal "" = .ok sampleParsed :=
  ⟨rfl, get_events_with_title_empty_returns_all 0 0 sampleCal sampleParsed rfl⟩

/-- Helper: on a list with no null start that is sorted by start instant, the
scan either exhausts with no upcoming event, or returns a first upcoming event
whose start instant is minimal among the upcoming ones. -/
theorem scanNext_spec (nowNaive : Int) :
    ∀ l : List Event, (∀ e ∈ l, e.starttime.isSome) → l.Sorted startLe →
    (scanNext nowNaive l = .ok none ∧ ∀ e ∈ l, isUpcoming nowNaive e = false) ∨
    (∃ e, scanNext nowNaive l = .ok (some e) ∧ e ∈ l ∧
      isUpcoming nowNaive e = true ∧
      ∀ e2 ∈ l, isUpcoming nowNaive e2 = true → startKey e ≤ startKey e2) := by
  intro l
  induction l with
  | nil =>
    intro _ _
    exact .inl ⟨rfl, by simp⟩
  | cons e rest ih =>
    intro hall hsort
    obtain ⟨st, hst⟩ :=
      Option.isSome_iff_exists.mp (hall e (List.mem_cons_self e rest))
    by_cases hc : nowNaive < st.naive
    · refine .inr ⟨e, by simp [scanNext, hst, hc], List.mem_cons_self e rest,
        by simp [isUpcoming, hst, hc], ?_⟩
      intro e2 he2 _
      rcases List.mem_cons.mp he2 with rfl | h2
      · exact le_refl _
      · exact (List.sorted_cons.mp hsort).1 e2 h2
    · have hstep : scanNext nowNaive (e :: rest) = scanNext nowNaive rest := by
        simp [scanNext, hst, hc]
      have heup : isUpcoming nowNaive e = false := by simp [isUpcoming, hst, hc]
      rcases ih (fun x hx => hall x (List.mem_cons_of_mem e hx))
          (List.sorted_cons.mp hsort).2 with ⟨hs, hrest⟩ | ⟨e1, hs, hmem, hup, hmin⟩
      · refine .inl ⟨hstep.trans hs, ?_⟩
        intro x hx
        rcases List.mem_cons.mp hx with rfl | hx2
        · exact heup
        · exact hrest x hx2
      · refine .inr ⟨e1, hstep.trans hs, List.mem_cons_of_mem e hmem, hup, ?_⟩
        intro e2 he2 hupe2
        rcases List.mem_cons.mp he2 with rfl | h2
        · rw [heup] at hupe2
          cases hupe2
        · exact hmin e2 h2 hupe2

/-- C1: when every decoded event has a non-null start, get_next_event returns
without raising: it returns none when no start is strictly after the current
reading (the current instant with its zone coerced to the candidate zone), and
otherwise returns an upcoming event whose start instant is minimal among all
upcoming events. -/
theorem get_next_event_min_upcoming (sysTz localTz : Tz) (cal : Calendar)
    (nowNaive : Int) (parsed : List Event)
    (hparse : parse_ics_events sysTz localTz cal.events = .ok parsed)
    (hsome : ∀ e ∈ parsed, e.starttime.isSome) :
    (get_next_event sysTz localTz cal nowNaive = .ok none ∧
      ∀ e ∈ parsed, isUpcoming nowNaive e = false) ∨
    (∃ e, get_next_event sysTz localTz cal nowNaive = .ok (some e) ∧
      e ∈ parsed ∧ isUpcoming nowNaive e = true ∧
      ∀ e2 ∈ parsed, isUpcoming nowNaive e2 = true → startKey e ≤ startKey e2) := by
  have hmem : ∀ x, x ∈ List.insertionSort startLe parsed ↔ x ∈ parsed := fun x =>
    (List.perm_insertionSort startLe parsed).mem_iff
  have hcond : ¬(2 ≤ parsed.length ∧ ∃ e ∈ parsed, e.starttime = none) := by
    rintro ⟨-, e, he, hnone⟩
    have hx := hsome e he
    rw [hnone] at hx
    cases hx
  have hrun : get_next_event sysTz localTz cal nowNaive =
      scanNext nowNaive (List.insertionSort startLe parsed) := by
    unfold get_next_event
    rw [hparse]
    dsimp only
    rw [if_neg hcond]
  rcases scanNext_spec nowNaive (List.insertionSort startLe parsed)
      (fun e he => hsome e ((hmem e).mp he))
      (List.sorted_insertionSort startLe parsed) with
    ⟨hs, hupf⟩ | ⟨e, hs, hmemE, hup, hmin⟩
  · exact .inl ⟨hrun.trans hs, fun e he => hupf e ((hmem e).mpr he)⟩
  · exact .inr ⟨e, hrun.trans hs, (hmem e).mp hmemE, hup,
      fun e2 he2 h2 => hmin e2 ((hmem e2).mpr he2) h2⟩

/-- Witness for C1 on the sample collection: at reading 500 both sample events
are upcoming and the scan picks the minimal one. -/
theorem get_next_event_min_upcoming_witness :
    (∀ e ∈ sampleParsed, e.starttime.isSome) ∧
    ((get_next_event 0 0 sampleCal 500 = .ok none ∧
       ∀ e ∈ sampleParsed, isUpcoming 500 e = false) ∨
     (∃ e, get_next_event 0 0 sampleCal 500 = .ok (some e) ∧
       e ∈ sampleParsed ∧ isUpcoming 500 e = true ∧
       ∀ e2 ∈ sampleParsed, isUpcoming 500 e2 = true → startKey e ≤ startKey e2)) :=
  ⟨by decide, get_next_event_min_upcoming 0 0 sampleCal 500 sampleParsed rfl (by decide)⟩

/-- C2: when some decoded event has a null start, get_next_event raises: with
two or more decoded events the sort comparison on the null start raises
TypeError, and with a single decoded event the zone coercion reads tzinfo of
None and raises AttributeError; either way no result is returned. -/
theorem get_next_event_null_start_raises (sysTz localTz : Tz) (cal : Calendar)
    (nowNaive : Int) (parsed : List Event) (e0 : Event)
    (hparse : parse_ics_events sysTz localTz cal.events = .ok parsed)
    (he : e0 ∈ parsed) (hnull : e0.starttime = none) :
    ∃ err, get_next_event sysTz localTz cal nowNaive = .error err := by
  unfold get_next_event
  rw [hparse]
  dsimp only
  by_cases hlen : 2 ≤ parsed.length
  · rw [if_pos ⟨hlen, e0, he, hnull⟩]
    exact ⟨.typeError, rfl⟩
  · have hone : parsed = [e0] := by
      cases parsed with
      | nil => cases he
      | cons a l =>
        cases l with
        | nil =>
          rw [List.mem_singleton.mp he]
        | cons b l2 =>
          exact absurd (by simp) hlen
    subst hone
    rw [if_neg (by simp)]
    have hsingle : List.insertionSort startLe [e0] = [e0] := rfl
    rw [hsingle]
    simp [scanNext, hnull]

/-- Witness for C2 on the null-start sample collection. -/
theorem get_next_event_null_start_raises_witness :
    (parse_ics_events 0 0 sampleNullCal.events = .ok sampleNullParsed ∧
     sampleNullEvent ∈ sampleNullParsed ∧
     sampleNullEvent.starttime = none) ∧
    ∃ err, get_next_event 0 0 sampleNullCal 0 = .error err :=
  ⟨⟨rfl, by decide, rfl⟩,
   get_next_event_null_start_raises 0 0 sampleNullCal 0 sampleNullParsed
     sampleNullEvent rfl (by decide) rfl⟩

end CalDavSkill
